import Mathlib

/-!
Verification development for a 2D tile-based platformer runtime.

The development shallowly embeds the core of the game:
* the sparse tile-grid store and its coordinate-key encoding
  (`src/scripts/tilemap.py`, `src/editor.py`),
* the physics entity with two-pass axis-separated collision resolution
  (`src/scripts/entities.py`),
* the animation state machine (`src/scripts/utils.py`),
* the camera smoothing step (`src/game.py`).

Python floats are embedded as rationals (`ℚ`); the claims under study are
formula-level (exact constants, min/clamp structure, truncation to the
integer pixel grid), not about binary rounding.  Python ints are `Int`.
pygame `Rect` stores integer fields and truncates float arguments toward
zero, which the embedding models explicitly with `qtrunc`.
-/

/-! ## Coordinate-key encoding

The store keys tiles by the string `f"{x};{y}"` (both `tilemap.py` and
`editor.py`).  Python's `str` on an `int` produces the decimal
representation, with a leading `-` for negatives.  `natCharsAux` is a
fuel-indexed structural version of the digit loop so that concrete keys
reduce by kernel evaluation. -/

def natCharsAux : Nat → Nat → List Char
  | 0, _ => []
  | _ + 1, 0 => []
  | fuel + 1, n + 1 => natCharsAux fuel ((n + 1) / 10) ++ [Nat.digitChar ((n + 1) % 10)]

/-- Decimal digit characters of a positive natural number (empty for 0). -/
def natChars (n : Nat) : List Char := natCharsAux n n

/-- Python `str` of a nonnegative integer, as a character list. -/
def natRepr (n : Nat) : List Char := if n = 0 then ['0'] else natChars n

/-- Python `str` of an integer, as a character list. -/
def intRepr (i : Int) : List Char :=
  if i < 0 then '-' :: natRepr i.natAbs else natRepr i.toNat

/-- Python `str` of an integer. -/
def intStr (i : Int) : String := ⟨intRepr i⟩

/-- The grid-coordinate key `f"{x};{y}"` used by the tile store. -/
def coordKey (x y : Int) : String := intStr x ++ ";" ++ intStr y

/-- Decimal value of a digit string (left inverse of `natChars`). -/
def charsVal (l : List Char) : Nat := l.foldl (fun a c => 10 * a + (c.toNat - 48)) 0

theorem charsVal_append_digit (l : List Char) (c : Char) :
    charsVal (l ++ [c]) = 10 * charsVal l + (c.toNat - 48) := by
  simp [charsVal, List.foldl_append]

theorem digitChar_toNat {d : Nat} (h : d < 10) : (Nat.digitChar d).toNat = 48 + d := by
  interval_cases d <;> decide

theorem digitChar_digit {d : Nat} (h : d < 10) :
    Nat.digitChar d ≠ ';' ∧ Nat.digitChar d ≠ '-' := by
  interval_cases d <;> decide

theorem charsVal_natCharsAux (fuel : Nat) :
    ∀ n, n ≤ fuel → charsVal (natCharsAux fuel n) = n := by
  induction fuel with
  | zero =>
    intro n hn
    interval_cases n
    simp [natCharsAux, charsVal]
  | succ fuel ih =>
    intro n hn
    match n with
    | 0 => simp [natCharsAux, charsVal]
    | m + 1 =>
      have hdiv : (m + 1) / 10 ≤ fuel := by
        have := Nat.div_lt_self (Nat.succ_pos m) (by norm_num : 1 < 10)
        omega
      have hmod : (m + 1) % 10 < 10 := Nat.mod_lt _ (by norm_num)
      have heq : natCharsAux (fuel + 1) (m + 1) =
          natCharsAux fuel ((m + 1) / 10) ++ [Nat.digitChar ((m + 1) % 10)] := rfl
      rw [heq, charsVal_append_digit, ih _ hdiv, digitChar_toNat hmod]
      omega

theorem charsVal_natChars (n : Nat) : charsVal (natChars n) = n :=
  charsVal_natCharsAux n n le_rfl

theorem natChars_inj {a b : Nat} (h : natChars a = natChars b) : a = b := by
  have := charsVal_natChars a
  rw [h, charsVal_natChars] at this
  omega

theorem mem_natCharsAux_digit (fuel : Nat) :
    ∀ n c, c ∈ natCharsAux fuel n → c ≠ ';' ∧ c ≠ '-' := by
  induction fuel with
  | zero => intro n c hc; simp [natCharsAux] at hc
  | succ fuel ih =>
    intro n c hc
    match n with
    | 0 => simp [natCharsAux] at hc
    | m + 1 =>
      have heq : natCharsAux (fuel + 1) (m + 1) =
          natCharsAux fuel ((m + 1) / 10) ++ [Nat.digitChar ((m + 1) % 10)] := rfl
      rw [heq] at hc
      rcases List.mem_append.mp hc with h | h
      · exact ih _ _ h
      · have hmod : (m + 1) % 10 < 10 := Nat.mod_lt _ (by norm_num)
        rcases List.mem_singleton.mp h with rfl
        exact digitChar_digit hmod

theorem mem_natRepr_digit {n : Nat} {c : Char} (hc : c ∈ natRepr n) :
    c ≠ ';' ∧ c ≠ '-' := by
  unfold natRepr at hc
  split at hc
  · rcases List.mem_singleton.mp hc with rfl; exact ⟨by decide, by decide⟩
  · exact mem_natCharsAux_digit n n c hc

theorem natRepr_inj {a b : Nat} (h : natRepr a = natRepr b) : a = b := by
  unfold natRepr at h
  split at h <;> split at h
  · omega
  · rename_i ha hb
    exfalso
    have : charsVal (natChars b) = 0 := by rw [← h]; decide
    rw [charsVal_natChars] at this; omega
  · rename_i ha hb
    exfalso
    have : charsVal (natChars a) = 0 := by rw [h]; decide
    rw [charsVal_natChars] at this; omega
  · exact natChars_inj h

theorem natRepr_ne_nil (n : Nat) : natRepr n ≠ [] := by
  unfold natRepr
  split
  · simp
  · rename_i hn
    intro hnil
    have : charsVal (natChars n) = 0 := by rw [hnil]; decide
    rw [charsVal_natChars] at this; omega

theorem intRepr_inj {a b : Int} (h : intRepr a = intRepr b) : a = b := by
  unfold intRepr at h
  split at h <;> split at h
  · rename_i ha hb
    have := natRepr_inj (List.cons_injective h)
    omega
  · rename_i ha hb
    exfalso
    rcases hd : natRepr b.toNat with _ | ⟨c, cs⟩
    · exact natRepr_ne_nil _ hd
    · rw [hd] at h
      injection h with h1 _
      exact (mem_natRepr_digit (hd ▸ List.mem_cons_self c cs)).2 h1.symm
  · rename_i ha hb
    exfalso
    rcases hd : natRepr a.toNat with _ | ⟨c, cs⟩
    · exact natRepr_ne_nil _ hd
    · rw [hd] at h
      injection h with h1 _
      exact (mem_natRepr_digit (hd ▸ List.mem_cons_self c cs)).2 h1
  · rename_i ha hb
    have := natRepr_inj h
    omega

theorem not_semicolon_mem_intRepr (i : Int) : ';' ∉ intRepr i := by
  unfold intRepr
  split
  · intro hc
    rcases List.mem_cons.mp hc with h | h
    · exact absurd h.symm (by decide)
    · exact (mem_natRepr_digit h).1 rfl
  · intro hc
    exact (mem_natRepr_digit hc).1 rfl

theorem split_semicolon :
    ∀ (a c b d : List Char), ';' ∉ a → ';' ∉ c →
      a ++ ';' :: b = c ++ ';' :: d → a = c ∧ b = d := by
  intro a
  induction a with
  | nil =>
    intro c b d _ hc h
    match c with
    | [] => simpa using h
    | x :: c' =>
      simp at h
      exact absurd (h.1 ▸ List.mem_cons_self x c') (h.1 ▸ hc)
  | cons x a' ih =>
    intro c b d ha hc h
    match c with
    | [] =>
      simp at h
      exact absurd (h.1 ▸ List.mem_cons_self x a') (h.1 ▸ ha)
    | y :: c' =>
      simp at h
      obtain ⟨rfl, h2⟩ := h
      have := ih c' b d (fun hm => ha (List.mem_cons_of_mem _ hm))
        (fun hm => hc (List.mem_cons_of_mem _ hm)) h2
      exact ⟨by rw [this.1], this.2⟩

theorem coordKey_data (x y : Int) :
    (coordKey x y).data = intRepr x ++ ';' :: intRepr y := by
  have h : (";" : String).data = [';'] := rfl
  simp [coordKey, intStr, String.data_append, h]

/-- Injectivity of the coordinate-key encoding. -/
theorem coordKey_inj_iff (x1 y1 x2 y2 : Int) :
    coordKey x1 y1 = coordKey x2 y2 ↔ x1 = x2 ∧ y1 = y2 := by
  constructor
  · intro h
    have hdata : (coordKey x1 y1).data = (coordKey x2 y2).data := by rw [h]
    rw [coordKey_data, coordKey_data] at hdata
    have := split_semicolon _ _ _ _ (not_semicolon_mem_intRepr x1)
      (not_semicolon_mem_intRepr x2) hdata
    exact ⟨intRepr_inj this.1, intRepr_inj this.2⟩
  · rintro ⟨rfl, rfl⟩; rfl

/-! ## Tile grid store (`src/scripts/tilemap.py`)

The store is a Python dict keyed by `f"{x};{y}"`; it is embedded as a
function `String → Option Tile` (dict semantics: at most one entry per
key, lookup misses are `none`).  `place_tile` / `delete_tile` are the
editor's insertion and checked deletion (`src/editor.py`, lines 112-123).
-/

structure Tile where
  type : String
  variant : Int
  pos : Int × Int
deriving DecidableEq

/-- The 9 neighborhood offsets, in source order (`tilemap.py` lines 11-21). -/
def NEIGHBOR_OFFSET : List (Int × Int) :=
  [(-1, 0), (-1, -1), (0, -1), (1, -1), (1, 0), (0, 0), (-1, 1), (0, 1), (1, 1)]

/-- Tile types participating in physics (`tilemap.py` line 23). -/
def PHYSICS_TILES : List String := ["grass", "stone"]

structure Tilemap where
  tile_size : Int
  store : String → Option Tile

/-- Integer-valued axis-aligned rectangle, as pygame's `Rect`
(integer fields; float arguments are truncated toward zero). -/
structure Rect where
  x : Int
  y : Int
  w : Int
  h : Int
deriving DecidableEq

/-- Truncation toward zero, the conversion pygame applies to float
coordinates when building an integer `Rect`. -/
def qtrunc (q : ℚ) : Int := if q < 0 then ⌈q⌉ else ⌊q⌋

/-- pygame `Rect.colliderect`: strict overlap on both axes; rectangles
with a zero-sized side never collide. -/
def colliderect (a b : Rect) : Bool :=
  decide (a.w ≠ 0 ∧ a.h ≠ 0 ∧ b.w ≠ 0 ∧ b.h ≠ 0 ∧
    a.x < b.x + b.w ∧ a.x + a.w > b.x ∧ a.y < b.y + b.h ∧ a.y + a.h > b.y)

/-- `Tilemap.tiles_around` (`tilemap.py` lines 60-75): the containing grid
cell via floor division, then the 9 neighborhood lookups in source order. -/
def tiles_around (tm : Tilemap) (position : ℚ × ℚ) : List Tile :=
  let tile_location : Int × Int :=
    (⌊position.1 / (tm.tile_size : ℚ)⌋, ⌊position.2 / (tm.tile_size : ℚ)⌋)
  NEIGHBOR_OFFSET.filterMap fun offset =>
    tm.store (coordKey (tile_location.1 + offset.1) (tile_location.2 + offset.2))

/-- `Tilemap.physics_rects_around` (`tilemap.py` lines 77-91): solid
neighbors as pixel-space rectangles of `tile_size × tile_size`. -/
def physics_rects_around (tm : Tilemap) (position : ℚ × ℚ) : List Rect :=
  (tiles_around tm position).filterMap fun tile =>
    if tile.type ∈ PHYSICS_TILES then
      some ⟨tile.pos.1 * tm.tile_size, tile.pos.2 * tm.tile_size, tm.tile_size, tm.tile_size⟩
    else none

/-- Editor tile placement (`editor.py` lines 112-117): dict insertion,
overwriting any existing entry at the key. -/
def place_tile (tm : Tilemap) (x y : Int) (t : Tile) : Tilemap :=
  { tm with store := fun k => if k = coordKey x y then some t else tm.store k }

/-- Editor tile deletion (`editor.py` lines 119-123): membership-checked
`del`, hence a no-op when the key is absent. -/
def delete_tile (tm : Tilemap) (x y : Int) : Tilemap :=
  if (tm.store (coordKey x y)).isSome then
    { tm with store := fun k => if k = coordKey x y then none else tm.store k }
  else tm

/-- A store holding a single tile, with the game's tile size of 16. -/
def singleTileMap (x y : Int) (t : Tile) : Tilemap :=
  ⟨16, fun k => if k = coordKey x y then some t else none⟩

/-- The empty store (free-fall scenarios). -/
def emptyTilemap : Tilemap := ⟨16, fun _ => none⟩

theorem mem_NEIGHBOR_OFFSET (dx dy : Int) :
    (dx, dy) ∈ NEIGHBOR_OFFSET ↔ dx.natAbs ≤ 1 ∧ dy.natAbs ≤ 1 := by
  constructor
  · intro h
    fin_cases h <;> simp
  · rintro ⟨hx, hy⟩
    have hx' : dx = -1 ∨ dx = 0 ∨ dx = 1 := by omega
    have hy' : dy = -1 ∨ dy = 0 ∨ dy = 1 := by omega
    rcases hx' with rfl | rfl | rfl <;> rcases hy' with rfl | rfl | rfl <;>
      simp [NEIGHBOR_OFFSET]

theorem filterMap_single_hit {α β : Type} [DecidableEq α] (b : β) :
    ∀ (l : List α) (x : α), x ∈ l → l.Nodup →
      (l.filterMap fun o => if o = x then some b else none) = [b] := by
  intro l
  induction l with
  | nil => intro x hx; simp at hx
  | cons a l' ih =>
    intro x hx hnd
    rcases List.mem_cons.mp hx with rfl | hx'
    · have hnone : (l'.filterMap fun o => if o = x then some b else none) = [] := by
        rw [List.filterMap_eq_nil_iff]
        intro o ho
        have : o ≠ x := fun hox => (List.nodup_cons.mp hnd).1 (hox ▸ ho)
        simp [this]
      simp [List.filterMap_cons, hnone]
    · have hax : a ≠ x := by
        intro h
        exact (List.nodup_cons.mp hnd).1 (h ▸ hx')
      simp only [List.filterMap_cons, if_neg hax]
      exact ih x hx' (List.nodup_cons.mp hnd).2

theorem mem_tiles_around_single {x y : Int} {t t' : Tile} {p : ℚ × ℚ}
    (h : t' ∈ tiles_around (singleTileMap x y t) p) : t' = t := by
  simp only [tiles_around, singleTileMap, List.mem_filterMap] at h
  obtain ⟨o, _, ho⟩ := h
  split at ho
  · exact (Option.some_inj.mp ho).symm
  · exact absurd ho (by simp)

theorem tiles_around_empty (p : ℚ × ℚ) : tiles_around emptyTilemap p = [] := by
  simp [tiles_around, emptyTilemap]

/-! ## Animation state machine (`src/scripts/utils.py`, lines 42-85)

Image handles are opaque; they are embedded as integers.  `frame` is a
Python int.  `total_animation_frames` is computed at construction time
(`image_duration * len(images)`), exactly as `__init__` does. -/

structure Animation where
  images : List Int
  image_duration : Int
  loop : Bool
  done : Bool
  frame : Int
  total_animation_frames : Int
deriving DecidableEq

/-- `Animation.__init__(images, image_duration, loop)`. -/
def Animation.make (images : List Int) (image_duration : Int) (loop : Bool) : Animation :=
  ⟨images, image_duration, loop, false, 0, image_duration * images.length⟩

/-- `Animation.copy`: same images (shared), fresh frame counter. -/
def Animation.copy (a : Animation) : Animation :=
  Animation.make a.images a.image_duration a.loop

/-- `Animation.update`: wrap when looping, clamp (and flag `done`) when not. -/
def Animation.update (a : Animation) : Animation :=
  if a.loop then
    { a with frame := (a.frame + 1) % a.total_animation_frames }
  else
    let f := min (a.frame + 1) (a.total_animation_frames - 1)
    { a with frame := f, done := if f ≥ a.total_animation_frames - 1 then true else a.done }

/-- Python list indexing (negative indices count from the end; out of
range is an `IndexError`, embedded as `none`). -/
def pyGet (l : List Int) (i : Int) : Option Int :=
  if 0 ≤ i then l.get? i.toNat
  else if 0 ≤ i + l.length then l.get? (i + l.length).toNat
  else none

/-- `Animation.img`: `images[int(frame / image_duration)]`. -/
def Animation.img (a : Animation) : Option Int :=
  pyGet a.images (qtrunc ((a.frame : ℚ) / (a.image_duration : ℚ)))

/-! ## Physics entity (`src/scripts/entities.py`)

`PhysicsEntity.update` resets the collision flags, moves and resolves the
x axis against the current 3×3 solid neighborhood, then the y axis, then
applies gravity with the terminal-velocity clamp and zeroes vertical
velocity on a vertical collision.  Asset lookup
(`game.assets[f"{type}/{action}"]`) is passed in as a total function:
per the design, missing animation keys are a startup configuration error,
not a per-tick concern. -/

def TERMINAL_VELOCITY : ℚ := 5
def DELTA_VELOCITY_PER_FRAME : ℚ := 0.1
def JUMP_ANIMATION_THRESHOLD : Int := 4
def JUMP_SPEED : ℚ := -3

structure Collisions where
  up : Bool
  down : Bool
  left : Bool
  right : Bool
deriving DecidableEq

structure PhysicsEntity where
  etype : String
  position : ℚ × ℚ
  size : Int × Int
  velocity : ℚ × ℚ
  collisions : Collisions
  action : String
  flip : Bool
  animation : Animation
deriving DecidableEq

/-- `PhysicsEntity.rect` built at a given position: pygame truncates the
float coordinates to integers. -/
def rect_of (p : ℚ × ℚ) (s : Int × Int) : Rect :=
  ⟨qtrunc p.1, qtrunc p.2, s.1, s.2⟩

/-- One x-axis loop iteration (`entities.py` lines 80-98): state carries
the (mutable) entity rect, the float x position and the collision flags. -/
def xCollide (fmx : ℚ) (s : Rect × ℚ × Collisions) (r : Rect) : Rect × ℚ × Collisions :=
  if colliderect s.1 r then
    let er1 : Rect := if fmx > 0 then { s.1 with x := r.x - s.1.w } else s.1
    let c1 : Collisions := if fmx > 0 then { s.2.2 with right := true } else s.2.2
    let er2 : Rect := if fmx < 0 then { er1 with x := r.x + r.w } else er1
    let c2 : Collisions := if fmx < 0 then { c1 with left := true } else c1
    (er2, ((er2.x : ℚ), c2))
  else s

/-- One y-axis loop iteration (`entities.py` lines 103-114). -/
def yCollide (fmy : ℚ) (s : Rect × ℚ × Collisions) (r : Rect) : Rect × ℚ × Collisions :=
  if colliderect s.1 r then
    let er1 : Rect := if fmy > 0 then { s.1 with y := r.y - s.1.h } else s.1
    let c1 : Collisions := if fmy > 0 then { s.2.2 with down := true } else s.2.2
    let er2 : Rect := if fmy < 0 then { er1 with y := r.y + r.h } else er1
    let c2 : Collisions := if fmy < 0 then { c1 with up := true } else c1
    (er2, ((er2.y : ℚ), c2))
  else s

/-- `PhysicsEntity.update` (`entities.py` lines 69-127). -/
def PhysicsEntity.update (tm : Tilemap) (e : PhysicsEntity) (movement : ℚ × ℚ) :
    PhysicsEntity :=
  let fm : ℚ × ℚ := (movement.1 + e.velocity.1, movement.2 + e.velocity.2)
  let px1 : ℚ := e.position.1 + fm.1
  let sx := (physics_rects_around tm (px1, e.position.2)).foldl (xCollide fm.1)
    (rect_of (px1, e.position.2) e.size, px1, ⟨false, false, false, false⟩)
  let px2 : ℚ := sx.2.1
  let py1 : ℚ := e.position.2 + fm.2
  let sy := (physics_rects_around tm (px2, py1)).foldl (yCollide fm.2)
    (rect_of (px2, py1) e.size, py1, sx.2.2)
  let py2 : ℚ := sy.2.1
  let cy : Collisions := sy.2.2
  let vy1 : ℚ := min TERMINAL_VELOCITY (e.velocity.2 + DELTA_VELOCITY_PER_FRAME)
  let vy2 : ℚ := if cy.down || cy.up then 0 else vy1
  let flip1 : Bool := if movement.1 > 0 then false else e.flip
  let flip2 : Bool := if movement.1 < 0 then true else flip1
  { e with position := (px2, py2), velocity := (e.velocity.1, vy2),
           collisions := cy, flip := flip2, animation := e.animation.update }

/-- `PhysicsEntity.set_action` (`entities.py` lines 60-67): switching to
the current action is a no-op; otherwise a fresh copy of the cached
animation template is installed. -/
def set_action (assets : String → Animation) (e : PhysicsEntity) (action : String) :
    PhysicsEntity :=
  if action ≠ e.action then
    { e with action := action, animation := (assets (e.etype ++ "/" ++ action)).copy }
  else e

structure Player where
  entity : PhysicsEntity
  air_time : Int
  jump_count : Int
deriving DecidableEq

/-- `Player.update` (`entities.py` lines 155-169): physics first, then
air-time bookkeeping and action selection. -/
def Player.update (assets : String → Animation) (tm : Tilemap) (p : Player)
    (movement : ℚ × ℚ) : Player :=
  let e := PhysicsEntity.update tm p.entity movement
  let a1 : Int := p.air_time + 1
  let a2 : Int := if e.collisions.down then 0 else a1
  let j2 : Int := if e.collisions.down then 0 else p.jump_count
  let e2 := if a2 > JUMP_ANIMATION_THRESHOLD then set_action assets e "jump"
    else if movement.1 ≠ 0 then set_action assets e "run"
    else set_action assets e "idle"
  ⟨e2, a2, j2⟩

/-! ## Camera smoothing (`src/game.py`, lines 94-105)

Per axis: `scroll += ((target - viewport/2) - scroll) / SCROLL_STEP`
where the target is the player rect's center coordinate. -/

def SCROLL_STEP : ℚ := 30

/-- One smoothing step of one scroll axis. -/
def camera_step (target half_view scroll : ℚ) : ℚ :=
  scroll + ((target - half_view) - scroll) / SCROLL_STEP

/-- The scroll value after `n` camera updates from `scroll = 0` toward a
stationary target requiring an offset of 300. -/
def camera_run (n : ℕ) : ℚ := (fun s => camera_step 300 0 s)^[n] 0

/-! ## General helper lemmas about the embedded operations -/

theorem qtrunc_intCast (z : Int) : qtrunc ((z : ℚ)) = z := by
  unfold qtrunc
  split <;> simp

theorem physics_rects_around_empty (p : ℚ × ℚ) :
    physics_rects_around emptyTilemap p = [] := by
  simp [physics_rects_around, tiles_around_empty]

/-- The velocity equation at the end of `PhysicsEntity.update`
(`entities.py` lines 115-121), read off the definition. -/
theorem update_velocity_eq (tm : Tilemap) (e : PhysicsEntity) (m : ℚ × ℚ) :
    (PhysicsEntity.update tm e m).velocity.2 =
      if (PhysicsEntity.update tm e m).collisions.down ||
          (PhysicsEntity.update tm e m).collisions.up then 0
      else min TERMINAL_VELOCITY (e.velocity.2 + DELTA_VELOCITY_PER_FRAME) := rfl

theorem update_velocity_x_eq (tm : Tilemap) (e : PhysicsEntity) (m : ℚ × ℚ) :
    (PhysicsEntity.update tm e m).velocity.1 = e.velocity.1 := rfl

theorem update_velocity_le (tm : Tilemap) (e : PhysicsEntity) (m : ℚ × ℚ) :
    (PhysicsEntity.update tm e m).velocity.2 ≤ TERMINAL_VELOCITY := by
  rw [update_velocity_eq]
  split
  · norm_num [TERMINAL_VELOCITY]
  · exact min_le_left _ _

theorem update_empty_collisions (e : PhysicsEntity) (m : ℚ × ℚ) :
    (PhysicsEntity.update emptyTilemap e m).collisions = ⟨false, false, false, false⟩ := by
  simp [PhysicsEntity.update, physics_rects_around_empty]

theorem set_action_action (assets : String → Animation) (e : PhysicsEntity) (a : String) :
    (set_action assets e a).action = a := by
  unfold set_action
  split
  · rfl
  · rename_i h
    push_neg at h
    exact h.symm

theorem set_action_collisions (assets : String → Animation) (e : PhysicsEntity) (a : String) :
    (set_action assets e a).collisions = e.collisions := by
  unfold set_action
  split <;> rfl

/-- A sequence of `n` physics updates with per-tick movement intents `ms`. -/
def run_updates (tm : Tilemap) (ms : ℕ → ℚ × ℚ) : ℕ → PhysicsEntity → PhysicsEntity
  | 0, e => e
  | n + 1, e => run_updates tm ms n (PhysicsEntity.update tm e (ms n))

theorem run_updates_velocity_le (tm : Tilemap) (ms : ℕ → ℚ × ℚ) (n : ℕ)
    (e : PhysicsEntity) :
    (run_updates tm ms (n + 1) e).velocity.2 ≤ TERMINAL_VELOCITY := by
  induction n generalizing e with
  | zero => exact update_velocity_le tm e (ms 0)
  | succ n ih => exact ih (PhysicsEntity.update tm e (ms (n + 1)))

theorem camera_step_between {s : ℚ} (h : s < 300) :
    s < camera_step 300 0 s ∧ camera_step 300 0 s < 300 := by
  unfold camera_step SCROLL_STEP
  constructor <;> linarith

theorem camera_run_lt (n : ℕ) : camera_run n < 300 := by
  induction n with
  | zero => norm_num [camera_run]
  | succ n ih =>
    have : camera_run (n + 1) = camera_step 300 0 (camera_run n) := by
      unfold camera_run
      rw [Function.iterate_succ_apply']
    rw [this]
    exact (camera_step_between ih).2

/-! ## Concrete scenario data used by witnesses and counterexamples -/

/-- A single solid grass tile at grid cell (2, 6) (pixel rect 32..48 × 96..112). -/
def tileG : Tile := ⟨"grass", 1, (2, 6)⟩

/-- Store holding only `tileG`, tile size 16. -/
def tmSingle : Tilemap := singleTileMap 2 6 tileG

/-- A player-sized body whose right edge overlaps the tile's left edge by
half a pixel after an x-move of 1/2 (sub-pixel overlap only). -/
def bodyFrac : PhysicsEntity :=
  ⟨"player", (24, 100), (8, 15), (0, 0), ⟨false, false, false, false⟩, "idle", false,
    Animation.make [0] 1 true⟩

/-- A player-sized body whose right edge overlaps the tile's left edge by
a whole pixel after an x-move of 5/2. -/
def bodyWhole : PhysicsEntity :=
  ⟨"player", (23, 100), (8, 15), (0, 0), ⟨false, false, false, false⟩, "idle", false,
    Animation.make [0] 1 true⟩

/-- A body in free fall (used with the empty store). -/
def bodyFall : PhysicsEntity :=
  ⟨"player", (50, 50), (8, 15), (0, 0), ⟨false, false, false, false⟩, "idle", false,
    Animation.make [0] 1 true⟩

/-! ## The claims -/

/-- C2: at the end of every `PhysicsEntity.update` call, `velocity.y` is 0
when `collisions.down` or `collisions.up` is set that tick, and otherwise
equals `min(TERMINAL_VELOCITY, old_velocity.y + GRAVITY_PER_TICK)`; in
particular a body landing on a solid tile has `velocity.y` reset to
exactly 0 the same tick. -/
theorem C2_vertical_velocity (tm : Tilemap) (e : PhysicsEntity) (m : ℚ × ℚ) :
    ((PhysicsEntity.update tm e m).velocity.2 =
      if (PhysicsEntity.update tm e m).collisions.down ||
          (PhysicsEntity.update tm e m).collisions.up then 0
      else min TERMINAL_VELOCITY (e.velocity.2 + DELTA_VELOCITY_PER_FRAME)) ∧
    ((PhysicsEntity.update tm e m).collisions.down = true →
      (PhysicsEntity.update tm e m).velocity.2 = 0) := by
  refine ⟨update_velocity_eq tm e m, fun hd => ?_⟩
  rw [update_velocity_eq, hd, Bool.true_or, if_pos rfl]

/-- C2 witness: a body falling onto the top of the single solid tile lands
(`collisions.down`) and has its vertical velocity zeroed that tick. -/
theorem C2_vertical_velocity_witness :
    (PhysicsEntity.update tmSingle
        ⟨"player", (36, 82), (8, 15), (0, 2), ⟨false, false, false, false⟩, "idle", false,
          Animation.make [0] 1 true⟩ (0, 0)).collisions.down = true ∧
    (PhysicsEntity.update tmSingle
        ⟨"player", (36, 82), (8, 15), (0, 2), ⟨false, false, false, false⟩, "idle", false,
          Animation.make [0] 1 true⟩ (0, 0)).velocity.2 = 0 := by
  refine ⟨by with_unfolding_all decide, ?_⟩
  exact (C2_vertical_velocity tmSingle _ (0, 0)).2 (by with_unfolding_all decide)

/-- C3: the grid-coordinate key encoding `f"{x};{y}"` is injective over all
integer coordinates, including negative values. -/
theorem C3_coordKey_injective (x1 y1 x2 y2 : ℤ) :
    coordKey x1 y1 = coordKey x2 y2 ↔ (x1 = x2 ∧ y1 = y2) :=
  coordKey_inj_iff x1 y1 x2 y2

/-- C5: in free fall (empty store, so the collision flags stay false),
`velocity.y` grows by exactly `DELTA_VELOCITY_PER_FRAME` per update while
below the cap, and after any positive number of updates — including after
an externally set jump velocity — it never exceeds `TERMINAL_VELOCITY`. -/
theorem C5_terminal_velocity :
    (∀ (e : PhysicsEntity) (m : ℚ × ℚ),
      e.velocity.2 + DELTA_VELOCITY_PER_FRAME ≤ TERMINAL_VELOCITY →
      (PhysicsEntity.update emptyTilemap e m).velocity.2 =
        e.velocity.2 + DELTA_VELOCITY_PER_FRAME) ∧
    (∀ (ms : ℕ → ℚ × ℚ) (n : ℕ) (e : PhysicsEntity),
      (run_updates emptyTilemap ms (n + 1) e).velocity.2 ≤ TERMINAL_VELOCITY) ∧
    (∀ (ms : ℕ → ℚ × ℚ) (n : ℕ) (e : PhysicsEntity),
      (run_updates emptyTilemap ms (n + 1)
        { e with velocity := (e.velocity.1, JUMP_SPEED) }).velocity.2 ≤ TERMINAL_VELOCITY) := by
  refine ⟨fun e m h => ?_, fun ms n e => run_updates_velocity_le _ ms n e,
    fun ms n e => run_updates_velocity_le _ ms n _⟩
  rw [update_velocity_eq, update_empty_collisions]
  simpa using min_eq_right h

/-- C5 witness: one free-fall tick from rest adds exactly one gravity
increment. -/
theorem C5_terminal_velocity_witness :
    bodyFall.velocity.2 + DELTA_VELOCITY_PER_FRAME ≤ TERMINAL_VELOCITY ∧
    (PhysicsEntity.update emptyTilemap bodyFall (0, 0)).velocity.2 =
      bodyFall.velocity.2 + DELTA_VELOCITY_PER_FRAME :=
  ⟨by with_unfolding_all decide,
    C5_terminal_velocity.1 bodyFall (0, 0) (by with_unfolding_all decide)⟩

/-- C8: one camera update from `scroll = 0` toward a stationary target
requiring offset 300 yields exactly 10, and further updates strictly
increase the scroll while never reaching (hence never overshooting) 300. -/
theorem C8_camera_smoothing :
    camera_run 1 = 10 ∧
    (∀ n : ℕ, camera_run n < camera_run (n + 1)) ∧
    (∀ n : ℕ, camera_run n < 300) := by
  refine ⟨?_, fun n => ?_, camera_run_lt⟩
  · norm_num [camera_run, camera_step, SCROLL_STEP]
  · have h : camera_run (n + 1) = camera_step 300 0 (camera_run n) := by
      unfold camera_run
      rw [Function.iterate_succ_apply']
    rw [h]
    exact (camera_step_between (camera_run_lt n)).1

/-- C6: for every non-looping animation, `update` clamps
`frame` to `min(frame+1, total_frames-1)` and `done` becomes true once the
clamp engages; concretely, 3 images × duration 4, after 15 updates:
`frame = 11`, `done = true`, current image is the one of index 2. -/
theorem C6_animation_clamp (a : Animation) (h : a.loop = false) :
    (a.update.frame = min (a.frame + 1) (a.total_animation_frames - 1) ∧
      (a.total_animation_frames - 1 ≤ a.frame + 1 → a.update.done = true)) ∧
    ((Animation.update^[15] (Animation.make [0, 1, 2] 4 false)).frame = 11 ∧
      (Animation.update^[15] (Animation.make [0, 1, 2] 4 false)).done = true ∧
      (Animation.update^[15] (Animation.make [0, 1, 2] 4 false)).img = some 2) := by
  refine ⟨⟨?_, fun hc => ?_⟩, by with_unfolding_all decide, by with_unfolding_all decide,
    by with_unfolding_all decide⟩
  · simp [Animation.update, h]
  · simp only [Animation.update, h, Bool.false_eq_true, if_false]
    rw [if_pos (by omega)]

/-- C6 witness: the clamp statement instantiated at the concrete
non-looping animation of the claim. -/
theorem C6_animation_clamp_witness :
    (((Animation.make [0, 1, 2] 4 false).update.frame =
        min ((Animation.make [0, 1, 2] 4 false).frame + 1)
          ((Animation.make [0, 1, 2] 4 false).total_animation_frames - 1) ∧
      ((Animation.make [0, 1, 2] 4 false).total_animation_frames - 1 ≤
          (Animation.make [0, 1, 2] 4 false).frame + 1 →
        (Animation.make [0, 1, 2] 4 false).update.done = true)) ∧
    ((Animation.update^[15] (Animation.make [0, 1, 2] 4 false)).frame = 11 ∧
      (Animation.update^[15] (Animation.make [0, 1, 2] 4 false)).done = true ∧
      (Animation.update^[15] (Animation.make [0, 1, 2] 4 false)).img = some 2)) :=
  C6_animation_clamp (Animation.make [0, 1, 2] 4 false) rfl

/-- C7: after each `Player.update` (physics first), `air_time` is
incremented, and reset to 0 together with the jump counter exactly when
`collisions.down` holds; the selected action is `jump` when
`air_time > JUMP_ANIMATION_THRESHOLD`, else `run` when the horizontal
intent is nonzero, else `idle`. -/
theorem C7_player_state (assets : String → Animation) (tm : Tilemap) (p : Player)
    (m : ℚ × ℚ) :
    ((Player.update assets tm p m).air_time =
      if (PhysicsEntity.update tm p.entity m).collisions.down then 0 else p.air_time + 1) ∧
    ((Player.update assets tm p m).jump_count =
      if (PhysicsEntity.update tm p.entity m).collisions.down then 0 else p.jump_count) ∧
    ((Player.update assets tm p m).entity.action =
      if (Player.update assets tm p m).air_time > JUMP_ANIMATION_THRESHOLD then "jump"
      else if m.1 ≠ 0 then "run" else "idle") ∧
    ((Player.update assets tm p m).entity.collisions =
      (PhysicsEntity.update tm p.entity m).collisions) := by
  refine ⟨rfl, rfl, ?_, ?_⟩
  · simp only [Player.update]
    split_ifs <;> simp [set_action_action]
  · simp only [Player.update]
    split_ifs <;> simp [set_action_collisions]

theorem place_tile_tile_size (tm : Tilemap) (x y : Int) (t : Tile) :
    (place_tile tm x y t).tile_size = tm.tile_size := rfl

theorem delete_tile_tile_size (tm : Tilemap) (x y : Int) :
    (delete_tile tm x y).tile_size = tm.tile_size := by
  unfold delete_tile
  split <;> rfl

/-- C9: `delete` on the tile store is a no-op when the coordinate is
absent (idempotent, never raises — embedded as a total function), the
editor's placement key for the cell (5,5) is the string "5;5", and placing
a tile there and then removing it leaves the store without that key, so
`tiles_around` / `physics_rects_around` queried at that location return
empty when no other tiles sit in the neighborhood. -/
theorem C9_remove_semantics :
    (∀ (tm : Tilemap) (x y : Int),
      tm.store (coordKey x y) = none → delete_tile tm x y = tm) ∧
    (∀ (tm : Tilemap) (x y : Int),
      delete_tile (delete_tile tm x y) x y = delete_tile tm x y) ∧
    coordKey 5 5 = "5;5" ∧
    (∀ (tm : Tilemap) (t : Tile),
      (delete_tile (place_tile tm 5 5 t) 5 5).store "5;5" = none) ∧
    (∀ (tm : Tilemap) (t : Tile), tm.tile_size = 16 →
      (∀ dx dy : Int, dx.natAbs ≤ 1 → dy.natAbs ≤ 1 → ¬(dx = 0 ∧ dy = 0) →
        tm.store (coordKey (5 + dx) (5 + dy)) = none) →
      tiles_around (delete_tile (place_tile tm 5 5 t) 5 5) (80, 80) = [] ∧
      physics_rects_around (delete_tile (place_tile tm 5 5 t) 5 5) (80, 80) = []) := by
  have hk : ("5;5" : String) = coordKey 5 5 := by with_unfolding_all decide
  have habsent : ∀ (tm : Tilemap) (x y : Int),
      tm.store (coordKey x y) = none → delete_tile tm x y = tm := by
    intro tm x y h
    simp [delete_tile, h]
  have hta : ∀ (tm : Tilemap) (t : Tile), tm.tile_size = 16 →
      (∀ dx dy : Int, dx.natAbs ≤ 1 → dy.natAbs ≤ 1 → ¬(dx = 0 ∧ dy = 0) →
        tm.store (coordKey (5 + dx) (5 + dy)) = none) →
      tiles_around (delete_tile (place_tile tm 5 5 t) 5 5) (80, 80) = [] := by
    intro tm t hts h
    have hsize : (delete_tile (place_tile tm 5 5 t) 5 5).tile_size = 16 := by
      rw [delete_tile_tile_size, place_tile_tile_size, hts]
    have hfl : (⌊(80 : ℚ) / ((16 : Int) : ℚ)⌋ : Int) = 5 := by norm_num
    have hplaced : (place_tile tm 5 5 t).store (coordKey 5 5) = some t := by
      simp [place_tile]
    unfold tiles_around
    rw [List.filterMap_eq_nil_iff]
    intro o ho
    obtain ⟨o1, o2⟩ := o
    have hb := (mem_NEIGHBOR_OFFSET o1 o2).mp ho
    rw [hsize, hfl]
    by_cases hc : coordKey (5 + o1) (5 + o2) = coordKey 5 5
    · simp [delete_tile, hplaced, place_tile, hc]
    · have hne : ¬(o1 = 0 ∧ o2 = 0) := by
        intro hzz
        exact hc ((coordKey_inj_iff _ _ _ _).mpr (by omega))
      simp only [delete_tile, hplaced, Option.isSome_some, if_pos]
      simp only [place_tile, if_neg hc]
      exact h o1 o2 hb.1 hb.2 hne
  refine ⟨habsent, fun tm x y => ?_, hk.symm, fun tm t => ?_, fun tm t hts h => ?_⟩
  · by_cases h : (tm.store (coordKey x y)).isSome
    · have hnone : (delete_tile tm x y).store (coordKey x y) = none := by
        simp [delete_tile, h]
      exact habsent _ x y hnone
    · have heq : delete_tile tm x y = tm := by
        unfold delete_tile
        rw [if_neg h]
      rw [heq, heq]
  · have hplaced : (place_tile tm 5 5 t).store (coordKey 5 5) = some t := by
      simp [place_tile]
    rw [hk]
    simp [delete_tile, hplaced]
  · refine ⟨hta tm t hts h, ?_⟩
    simp [physics_rects_around, hta tm t hts h]

/-- C9 witness: all hypothesis-bearing parts instantiated on the empty
store with a concrete grass tile. -/
theorem C9_remove_semantics_witness :
    delete_tile emptyTilemap 5 5 = emptyTilemap ∧
    tiles_around (delete_tile (place_tile emptyTilemap 5 5 tileG) 5 5) (80, 80) = [] ∧
    physics_rects_around (delete_tile (place_tile emptyTilemap 5 5 tileG) 5 5) (80, 80) = [] :=
  ⟨C9_remove_semantics.1 emptyTilemap 5 5 rfl,
    (C9_remove_semantics.2.2.2.2 emptyTilemap tileG rfl (fun _ _ _ _ _ => rfl)).1,
    (C9_remove_semantics.2.2.2.2 emptyTilemap tileG rfl (fun _ _ _ _ _ => rfl)).2⟩

/-- C4: a rectangle is returned by `physics_rects_around` exactly when some
tile of the 3×3 neighborhood of the cell containing the position has a
solid type, and then the rectangle is `tile_size × tile_size` anchored at
`grid_position * tile_size`; non-solid tiles contribute nothing. -/
theorem C4_physics_rects_characterization (tm : Tilemap) (p : ℚ × ℚ) (r : Rect) :
    r ∈ physics_rects_around tm p ↔
      ∃ dx dy : ℤ, dx.natAbs ≤ 1 ∧ dy.natAbs ≤ 1 ∧
        ∃ t : Tile,
          tm.store (coordKey (⌊p.1 / (tm.tile_size : ℚ)⌋ + dx)
            (⌊p.2 / (tm.tile_size : ℚ)⌋ + dy)) = some t ∧
          t.type ∈ PHYSICS_TILES ∧
          r = ⟨t.pos.1 * tm.tile_size, t.pos.2 * tm.tile_size, tm.tile_size, tm.tile_size⟩ := by
  simp only [physics_rects_around, tiles_around, List.mem_filterMap]
  constructor
  · rintro ⟨t, ⟨o, ho, hs⟩, hr⟩
    obtain ⟨o1, o2⟩ := o
    have hb := (mem_NEIGHBOR_OFFSET o1 o2).mp ho
    split at hr
    · rename_i hmem
      exact ⟨o1, o2, hb.1, hb.2, t, hs, hmem, (Option.some_inj.mp hr).symm⟩
    · exact absurd hr (by simp)
  · rintro ⟨dx, dy, hdx, hdy, t, hs, hmem, rfl⟩
    exact ⟨t, ⟨(dx, dy), (mem_NEIGHBOR_OFFSET dx dy).mpr ⟨hdx, hdy⟩, hs⟩, by simp [hmem]⟩

/-! ## Collision-fold lemmas -/

theorem tiles_around_single_eq (tx ty : Int) (t : Tile) (p : ℚ × ℚ)
    (hmem : (tx - ⌊p.1 / ((16 : Int) : ℚ)⌋, ty - ⌊p.2 / ((16 : Int) : ℚ)⌋) ∈
      NEIGHBOR_OFFSET) :
    tiles_around (singleTileMap tx ty t) p = [t] := by
  unfold tiles_around singleTileMap
  have hcongr : ∀ o ∈ NEIGHBOR_OFFSET,
      (if coordKey (⌊p.1 / ((16 : Int) : ℚ)⌋ + o.1) (⌊p.2 / ((16 : Int) : ℚ)⌋ + o.2) =
          coordKey tx ty then some t else none) =
      (if o = (tx - ⌊p.1 / ((16 : Int) : ℚ)⌋, ty - ⌊p.2 / ((16 : Int) : ℚ)⌋)
        then some t else none) := by
    intro o _
    refine if_congr ?_ rfl rfl
    rw [coordKey_inj_iff, Prod.ext_iff]
    constructor
    · rintro ⟨h1, h2⟩
      exact ⟨by omega, by omega⟩
    · rintro ⟨h1, h2⟩
      simp only at h1 h2
      omega
  rw [List.filterMap_congr hcongr]
  exact filterMap_single_hit t NEIGHBOR_OFFSET _ hmem (by decide)

theorem physics_rects_around_single_eq (tx ty : Int) (t : Tile) (p : ℚ × ℚ)
    (htt : t.type ∈ PHYSICS_TILES) (htp : t.pos = (tx, ty))
    (hmem : (tx - ⌊p.1 / ((16 : Int) : ℚ)⌋, ty - ⌊p.2 / ((16 : Int) : ℚ)⌋) ∈
      NEIGHBOR_OFFSET) :
    physics_rects_around (singleTileMap tx ty t) p =
      [⟨tx * 16, ty * 16, 16, 16⟩] := by
  rw [physics_rects_around, tiles_around_single_eq tx ty t p hmem]
  simp [singleTileMap, htt, htp]

theorem foldl_yCollide_no_hit (fmy : ℚ) (s : Rect × ℚ × Collisions) (l : List Rect)
    (h : ∀ r ∈ l, colliderect s.1 r = false) :
    l.foldl (yCollide fmy) s = s := by
  induction l with
  | nil => rfl
  | cons a l ih =>
    rw [List.foldl_cons]
    have hs : yCollide fmy s a = s := by
      simp [yCollide, h a (List.mem_cons_self a l)]
    rw [hs]
    exact ih fun r hr => h r (List.mem_cons_of_mem a hr)

theorem xCollide_right_step (fmx : ℚ) (er : Rect) (px : ℚ) (c : Collisions) (r : Rect)
    (hcol : colliderect er r = true) (hpos : 0 < fmx) :
    xCollide fmx (er, px, c) r =
      ({ er with x := r.x - er.w }, ((r.x - er.w : Int) : ℚ), { c with right := true }) := by
  have hneg : ¬fmx < 0 := by linarith
  simp [xCollide, hcol, hpos, hneg]

theorem foldl_xCollide_down_up (fmx : ℚ) (l : List Rect) (s : Rect × ℚ × Collisions) :
    (l.foldl (xCollide fmx) s).2.2.down = s.2.2.down ∧
    (l.foldl (xCollide fmx) s).2.2.up = s.2.2.up := by
  induction l generalizing s with
  | nil => exact ⟨rfl, rfl⟩
  | cons a l ih =>
    rw [List.foldl_cons]
    have h := ih (xCollide fmx s a)
    have hstep : (xCollide fmx s a).2.2.down = s.2.2.down ∧
        (xCollide fmx s a).2.2.up = s.2.2.up := by
      unfold xCollide
      split
      · dsimp only
        constructor <;> (split <;> split <;> rfl)
      · exact ⟨rfl, rfl⟩
    exact ⟨h.1.trans hstep.1, h.2.trans hstep.2⟩

theorem foldl_yCollide_left_right (fmy : ℚ) (l : List Rect) (s : Rect × ℚ × Collisions) :
    (l.foldl (yCollide fmy) s).2.2.left = s.2.2.left ∧
    (l.foldl (yCollide fmy) s).2.2.right = s.2.2.right := by
  induction l generalizing s with
  | nil => exact ⟨rfl, rfl⟩
  | cons a l ih =>
    rw [List.foldl_cons]
    have h := ih (yCollide fmy s a)
    have hstep : (yCollide fmy s a).2.2.left = s.2.2.left ∧
        (yCollide fmy s a).2.2.right = s.2.2.right := by
      unfold yCollide
      split
      · dsimp only
        constructor <;> (split <;> split <;> rfl)
      · exact ⟨rfl, rfl⟩
    exact ⟨h.1.trans hstep.1, h.2.trans hstep.2⟩

theorem foldl_xCollide_pos_int (fmx : ℚ) (l : List Rect) (s : Rect × ℚ × Collisions)
    (hs : (s.2.2.right || s.2.2.left) = true → ∃ z : Int, s.2.1 = (z : ℚ)) :
    ((l.foldl (xCollide fmx) s).2.2.right || (l.foldl (xCollide fmx) s).2.2.left) = true →
      ∃ z : Int, (l.foldl (xCollide fmx) s).2.1 = (z : ℚ) := by
  induction l generalizing s with
  | nil => exact hs
  | cons a l ih =>
    rw [List.foldl_cons]
    apply ih
    unfold xCollide
    split
    · exact fun _ => ⟨_, rfl⟩
    · exact hs

theorem foldl_yCollide_pos_int (fmy : ℚ) (l : List Rect) (s : Rect × ℚ × Collisions)
    (hs : (s.2.2.down || s.2.2.up) = true → ∃ z : Int, s.2.1 = (z : ℚ)) :
    ((l.foldl (yCollide fmy) s).2.2.down || (l.foldl (yCollide fmy) s).2.2.up) = true →
      ∃ z : Int, (l.foldl (yCollide fmy) s).2.1 = (z : ℚ) := by
  induction l generalizing s with
  | nil => exact hs
  | cons a l ih =>
    rw [List.foldl_cons]
    apply ih
    unfold yCollide
    split
    · exact fun _ => ⟨_, rfl⟩
    · exact hs

/-- C10: collision detection operates on the integer rectangle obtained by
truncating the float position, so whenever an axis collision flag is set
by an update, the post-update position on that axis is an exact integer;
and an overlap that exists only in the discarded fractional part (here a
half-pixel overlap of the body's right edge past the tile's left edge at
x = 32) registers no collision and moves the body through unimpeded. -/
theorem C10_truncated_rect :
    (∀ (tm : Tilemap) (e : PhysicsEntity) (m : ℚ × ℚ),
      (((PhysicsEntity.update tm e m).collisions.right = true ∨
        (PhysicsEntity.update tm e m).collisions.left = true) →
        ∃ z : Int, (PhysicsEntity.update tm e m).position.1 = (z : ℚ)) ∧
      (((PhysicsEntity.update tm e m).collisions.down = true ∨
        (PhysicsEntity.update tm e m).collisions.up = true) →
        ∃ z : Int, (PhysicsEntity.update tm e m).position.2 = (z : ℚ))) ∧
    ((32 : ℚ) < bodyFrac.position.1 + (1/2 + bodyFrac.velocity.1) + (bodyFrac.size.1 : ℚ) ∧
      (PhysicsEntity.update tmSingle bodyFrac (1/2, 0)).collisions =
        ⟨false, false, false, false⟩ ∧
      (PhysicsEntity.update tmSingle bodyFrac (1/2, 0)).position.1 = 49/2) := by
  constructor
  · intro tm e m
    simp only [PhysicsEntity.update]
    constructor
    · intro hflag
      apply foldl_xCollide_pos_int
      · intro h
        simp at h
      · rcases hflag with h | h
        · rw [(foldl_yCollide_left_right _ _ _).2] at h
          dsimp only at h
          simp [h]
        · rw [(foldl_yCollide_left_right _ _ _).1] at h
          dsimp only at h
          simp [h]
    · intro hflag
      apply foldl_yCollide_pos_int
      · intro h
        rw [(foldl_xCollide_down_up _ _ _).1, (foldl_xCollide_down_up _ _ _).2] at h
        simp at h
      · rcases hflag with h | h <;> simp [h]
  · exact ⟨by with_unfolding_all decide, by with_unfolding_all decide,
      by with_unfolding_all decide⟩

/-- C10 witness: a whole-pixel overlap sets `collisions.right`, and the
theorem then yields an integer post-update x position. -/
theorem C10_truncated_rect_witness :
    (PhysicsEntity.update tmSingle bodyWhole (5/2, 0)).collisions.right = true ∧
    ∃ z : Int, (PhysicsEntity.update tmSingle bodyWhole (5/2, 0)).position.1 = (z : ℚ) :=
  ⟨by with_unfolding_all decide,
    (C10_truncated_rect.1 tmSingle bodyWhole (5/2, 0)).1
      (Or.inl (by with_unfolding_all decide))⟩

/-- C1 counterexample: a body moving right (frame movement 1/2 > 0) whose
right edge overlaps the single solid tile's left edge (x = 32) by exactly
half a pixel, with full vertical overlap, yet the update leaves
`collisions.right` false and the final `position.x + size.x` is 32.5, not
the tile boundary — refuting the claim for sub-pixel overlap depths. -/
theorem C1_counterexample :
    (0 : ℚ) < 1/2 + bodyFrac.velocity.1 ∧
    (32 : ℚ) < bodyFrac.position.1 + (1/2 + bodyFrac.velocity.1) + (bodyFrac.size.1 : ℚ) ∧
    bodyFrac.position.1 + (1/2 + bodyFrac.velocity.1) + (bodyFrac.size.1 : ℚ) < 48 ∧
    bodyFrac.position.2 < 112 ∧ (96 : ℚ) < bodyFrac.position.2 + (bodyFrac.size.2 : ℚ) ∧
    (PhysicsEntity.update tmSingle bodyFrac (1/2, 0)).collisions.right = false ∧
    (PhysicsEntity.update tmSingle bodyFrac (1/2, 0)).position.1 + (bodyFrac.size.1 : ℚ) ≠
      32 := by
  with_unfolding_all decide

/-- C1 (amended): a body moving right (`frame_movement.x > 0`) into a
single solid tile (any type in `PHYSICS_TILES`) at grid cell (Tg, Ty),
lying in the 3×3 neighborhood of
the post-move position, whose left edge the body's *integer-truncated*
right edge overlaps (at least one whole pixel: `trunc(x) + w > Tg*16`),
with the truncated rect also overlapping vertically, gets
`collisions.right = true`, an unchanged `velocity.x`, and a final
`position.x + size.x = Tg * tile_size` exactly, in the same update. -/
theorem C1_right_collision_amended (tx ty : Int) (t : Tile) (e : PhysicsEntity)
    (m : ℚ × ℚ)
    (htt : t.type ∈ PHYSICS_TILES) (htp : t.pos = (tx, ty))
    (hw : 0 < e.size.1) (hh : 0 < e.size.2)
    (hfm : 0 < m.1 + e.velocity.1)
    (hdx : (tx - ⌊(e.position.1 + (m.1 + e.velocity.1)) / ((16 : Int) : ℚ)⌋).natAbs ≤ 1)
    (hdy : (ty - ⌊e.position.2 / ((16 : Int) : ℚ)⌋).natAbs ≤ 1)
    (hov1 : tx * 16 < qtrunc (e.position.1 + (m.1 + e.velocity.1)) + e.size.1)
    (hov2 : qtrunc (e.position.1 + (m.1 + e.velocity.1)) < tx * 16 + 16)
    (hov3 : ty * 16 < qtrunc e.position.2 + e.size.2)
    (hov4 : qtrunc e.position.2 < ty * 16 + 16) :
    (PhysicsEntity.update (singleTileMap tx ty t) e m).collisions.right = true ∧
    (PhysicsEntity.update (singleTileMap tx ty t) e m).velocity.1 = e.velocity.1 ∧
    (PhysicsEntity.update (singleTileMap tx ty t) e m).position.1 + (e.size.1 : ℚ) =
      (tx : ℚ) * 16 := by
  have hmemx : (tx - ⌊(e.position.1 + (m.1 + e.velocity.1)) / ((16 : Int) : ℚ)⌋,
      ty - ⌊e.position.2 / ((16 : Int) : ℚ)⌋) ∈ NEIGHBOR_OFFSET :=
    (mem_NEIGHBOR_OFFSET _ _).mpr ⟨hdx, hdy⟩
  have LX := physics_rects_around_single_eq tx ty t
    (e.position.1 + (m.1 + e.velocity.1), e.position.2) htt htp hmemx
  have hcol : colliderect
      (rect_of (e.position.1 + (m.1 + e.velocity.1), e.position.2) e.size)
      ⟨tx * 16, ty * 16, 16, 16⟩ = true := by
    simp only [colliderect, rect_of, decide_eq_true_eq]
    refine ⟨by omega, by omega, by norm_num, by norm_num, by omega, by omega, by omega,
      by omega⟩
  have hstep := xCollide_right_step (m.1 + e.velocity.1)
    (rect_of (e.position.1 + (m.1 + e.velocity.1), e.position.2) e.size)
    (e.position.1 + (m.1 + e.velocity.1)) ⟨false, false, false, false⟩
    ⟨tx * 16, ty * 16, 16, 16⟩ hcol hfm
  have hnocol : ∀ r ∈ physics_rects_around (singleTileMap tx ty t)
      (((tx * 16 - (rect_of (e.position.1 + (m.1 + e.velocity.1), e.position.2) e.size).w :
          Int) : ℚ), e.position.2 + (m.2 + e.velocity.2)),
      colliderect (rect_of
        (((tx * 16 - (rect_of (e.position.1 + (m.1 + e.velocity.1), e.position.2) e.size).w :
          Int) : ℚ), e.position.2 + (m.2 + e.velocity.2)) e.size) r = false := by
    intro r hr
    simp only [physics_rects_around, List.mem_filterMap] at hr
    obtain ⟨t', ht', hmem2⟩ := hr
    have ht'' := mem_tiles_around_single ht'
    subst ht''
    rw [if_pos htt] at hmem2
    have hr' : r = ⟨t'.pos.1 * 16, t'.pos.2 * 16, 16, 16⟩ := by
      have hsome := Option.some_inj.mp hmem2
      rw [← hsome]
      simp [singleTileMap]
    subst hr'
    simp only [colliderect, rect_of, decide_eq_false_iff_not]
    intro hcontra
    obtain ⟨_, _, _, _, _, hbad, _, _⟩ := hcontra
    rw [qtrunc_intCast] at hbad
    rw [htp] at hbad
    simp only [rect_of] at hbad
    omega
  simp only [PhysicsEntity.update]
  rw [LX, List.foldl_cons, List.foldl_nil, hstep]
  dsimp only
  rw [foldl_yCollide_no_hit _ _ _ hnocol]
  refine ⟨rfl, trivial, ?_⟩
  dsimp only [rect_of]
  push_cast
  ring

/-- C1 witness: the amended statement instantiated on a concrete body
whose truncated right edge overlaps the tile (2,6) by one whole pixel. -/
theorem C1_right_collision_amended_witness :
    (PhysicsEntity.update (singleTileMap 2 6 tileG) bodyWhole (5/2, 0)).collisions.right =
      true ∧
    (PhysicsEntity.update (singleTileMap 2 6 tileG) bodyWhole (5/2, 0)).velocity.1 =
      bodyWhole.velocity.1 ∧
    (PhysicsEntity.update (singleTileMap 2 6 tileG) bodyWhole (5/2, 0)).position.1 +
      (bodyWhole.size.1 : ℚ) = ((2 : Int) : ℚ) * 16 :=
  C1_right_collision_amended 2 6 tileG bodyWhole (5/2, 0) (by decide) rfl (by decide)
    (by decide)
    (by with_unfolding_all decide) (by with_unfolding_all decide)
    (by with_unfolding_all decide) (by with_unfolding_all decide)
    (by with_unfolding_all decide) (by with_unfolding_all decide)
    (by with_unfolding_all decide)
